import Mathlib

/-!
Shallow embedding of `brenparse/parser.py` (BRENDA html table parser).

The original program parses an html document with BeautifulSoup.  The parser
classes only ever use the document through a small interface: find the table
`div` with a given id, check its header texts, collect four row collections
by css class, and for each row div read `div.get_text(',')` (the flattened
text) and the texts of its `<a>` descendants (the inline links).  The
embedding models a row by exactly those two observations (`Row`), a table by
its header texts and the four row collections (`BTable`), and a document by
an association list from div id to table (`Doc`).

Python's `dict` (insertion ordered, first-key lookup, in-place update) is
modelled by association lists with `alGet`/`alUpdate`.  Python exceptions
(`IndexError`, `ValueError` from `float`, `AssertionError`) are modelled with
`Except PyErr`.  `float` values are modelled exactly, as normalized rational
numbers (`PyFloat`, an executable numerator/denominator pair); the value
cell of a row is a `PyVal` which is either a string (non numeric tables), a
float (direct numeric parse) or an int (the result of Python's `round`).
Python's `float(...)` string parsing is modelled for finite decimal literals
(optional sign, digits, decimal point, exponent); `inf`/`nan`/underscore
forms do not occur in the analysed strings.  Case mapping is modelled for
ASCII, which is what BRENDA organism names use.
-/

/-- Python `str.split()` (no argument) splits on runs of whitespace; these are
the whitespace characters relevant for ASCII text. -/
def isPySpace (c : Char) : Bool :=
  decide (c.toNat = 32 ∨ c.toNat = 9 ∨ c.toNat = 10 ∨ c.toNat = 13 ∨
    c.toNat = 11 ∨ c.toNat = 12)

/-- ASCII lower casing of one character, as Python `str.lower` acts on the
ASCII range. -/
def pyToLowerChar (c : Char) : Char :=
  if 65 ≤ c.toNat ∧ c.toNat ≤ 90 then Char.ofNat (c.toNat + 32) else c

/-- ASCII upper casing of one character, as Python `str.upper`/`capitalize`
act on the ASCII range. -/
def pyToUpperChar (c : Char) : Char :=
  if 97 ≤ c.toNat ∧ c.toNat ≤ 122 then Char.ofNat (c.toNat - 32) else c

/-- Python `str.lower` on a character list. -/
def pyLowerL (cs : List Char) : List Char := cs.map pyToLowerChar

/-- Python `str.capitalize` on a character list: first character upper cased,
the rest lower cased. -/
def pyCapitalizeL : List Char → List Char
  | [] => []
  | c :: rest => pyToUpperChar c :: rest.map pyToLowerChar

/-- Python `str.split(sep)` for a one-character separator, keeping empty
pieces, on character lists. -/
def splitOnCharL (sep : Char) : List Char → List (List Char)
  | [] => [[]]
  | c :: rest =>
    if c = sep then [] :: splitOnCharL sep rest
    else
      match splitOnCharL sep rest with
      | [] => [[c]]
      | h :: t => (c :: h) :: t

/-- Python `str.split(sep)` for a one-character separator on strings. -/
def pySplitChar (sep : Char) (s : String) : List String :=
  (splitOnCharL sep s.data).map List.asString

/-- Python `value.split('to')`: split on each non-overlapping occurrence of
the two-character separator `to`, scanning left to right. -/
def splitOnToL : List Char → List (List Char)
  | [] => [[]]
  | 't' :: 'o' :: rest => [] :: splitOnToL rest
  | c :: rest =>
    match splitOnToL rest with
    | [] => [[c]]
    | h :: t => (c :: h) :: t

/-- Python `value.split('to')` on strings. -/
def pySplitTo (s : String) : List String := (splitOnToL s.data).map List.asString

/-- Python `re.split(',|and', s)`: at each position the regex matches either
a comma or the literal `and`, and the string is split there. -/
def reSplitCommaAndL : List Char → List (List Char)
  | [] => [[]]
  | ',' :: rest => [] :: reSplitCommaAndL rest
  | 'a' :: 'n' :: 'd' :: rest => [] :: reSplitCommaAndL rest
  | c :: rest =>
    match reSplitCommaAndL rest with
    | [] => [[c]]
    | h :: t => (c :: h) :: t

/-- Python `s.replace(c, '')` for a one-character pattern: every occurrence
of the character is removed. -/
def removeCharL (c : Char) (cs : List Char) : List Char := cs.filter (fun x => x ≠ c)

/-- Python `s.replace(c, '')` on strings. -/
def removeChar (c : Char) (s : String) : String := (removeCharL c s.data).asString

/-- Python `s.strip(c)` for a one-character strip set: all leading and
trailing occurrences of the character are removed. -/
def pyStripChar (c : Char) (s : String) : String :=
  (((s.data.dropWhile (fun x => x = c)).reverse.dropWhile (fun x => x = c)).reverse).asString

/-- Accumulator worker for Python `str.split()` with no argument: words are
the maximal runs of non-whitespace characters. -/
def pyWordsAux (acc : List Char) : List Char → List (List Char)
  | [] => if acc = [] then [] else [acc.reverse]
  | c :: rest =>
    if isPySpace c then
      if acc = [] then pyWordsAux [] rest else acc.reverse :: pyWordsAux [] rest
    else pyWordsAux (c :: acc) rest

/-- Python `str.split()` with no argument, on character lists. -/
def pyWordsL (cs : List Char) : List (List Char) := pyWordsAux [] cs

/-- Python `' '.join(parts)` on character lists. -/
def joinSpaceL (ls : List (List Char)) : List Char := List.intercalate [' '] ls

/-- Python `sub in s` substring containment, on character lists. -/
def containsSubL (sub : List Char) : List Char → Bool
  | [] => sub.isEmpty
  | c :: rest => sub.isPrefixOf (c :: rest) || containsSubL sub rest

/-- Exact rational model of a Python float: a numerator and a positive
denominator, kept normalized so that structural equality is value equality.
All operations are structurally recursive, hence kernel-computable. -/
structure PyFloat where
  num : Int
  den : Nat
  deriving DecidableEq, Repr

/-- Normalized constructor for `PyFloat`: divide by the gcd. -/
def pfMk (n : Int) (d : Nat) : PyFloat :=
  let g := Nat.gcd n.natAbs d
  if g = 0 then ⟨0, 1⟩ else ⟨n / (g : Int), d / g⟩

/-- Exact float addition. -/
def pfAdd (a b : PyFloat) : PyFloat :=
  pfMk (a.num * (b.den : Int) + b.num * (a.den : Int)) (a.den * b.den)

/-- Exact float division by a positive natural number. -/
def pfDivN (a : PyFloat) (k : Nat) : PyFloat := pfMk a.num (a.den * k)

/-- Exact float multiplication by a natural number. -/
def pfMulN (a : PyFloat) (k : Nat) : PyFloat := pfMk (a.num * (k : Int)) a.den

/-- Float negation. -/
def pfNeg (a : PyFloat) : PyFloat := ⟨-a.num, a.den⟩

/-- The float denoting a natural number. -/
def pfOfNat (n : Nat) : PyFloat := ⟨(n : Int), 1⟩

/-- Value of a list of decimal digit characters. -/
def decNatL (ds : List Char) : Nat := ds.foldl (fun a c => a * 10 + (c.toNat - 48)) 0

/-- Decimal digit test used by the float literal grammar. -/
def isDigitC (c : Char) : Bool := 48 ≤ c.toNat && c.toNat ≤ 57

/-- Exponent part of a Python float literal: either the end of the string or
`e`/`E`, an optional sign and a non-empty digit run. -/
def parseExpTail (m : PyFloat) : List Char → Option PyFloat
  | [] => some m
  | c :: rest =>
    if c = 'e' ∨ c = 'E' then
      match rest with
      | '+' :: ds => if ds ≠ [] ∧ ds.all isDigitC then some (pfMulN m (10 ^ decNatL ds)) else none
      | '-' :: ds => if ds ≠ [] ∧ ds.all isDigitC then some (pfDivN m (10 ^ decNatL ds)) else none
      | ds => if ds ≠ [] ∧ ds.all isDigitC then some (pfMulN m (10 ^ decNatL ds)) else none
    else none

/-- Unsigned part of a Python float literal: digits, an optional decimal
point with digits (at least one digit in total), then the exponent part. -/
def parseFloatL (cs : List Char) : Option PyFloat :=
  let ip := cs.takeWhile isDigitC
  let r1 := cs.dropWhile isDigitC
  match r1 with
  | '.' :: r2 =>
    let fp := r2.takeWhile isDigitC
    let r3 := r2.dropWhile isDigitC
    if ip = [] ∧ fp = [] then none
    else parseExpTail (pfMk ((decNatL ip : Int) * (10 : Int) ^ fp.length + (decNatL fp : Int)) (10 ^ fp.length)) r3
  | _ => if ip = [] then none else parseExpTail (pfOfNat (decNatL ip)) r1

/-- Python `float(s)` for finite decimal literals: surrounding whitespace is
ignored, an optional sign precedes the unsigned literal. -/
def pyFloat? (s : String) : Option PyFloat :=
  let cs := ((s.data.dropWhile isPySpace).reverse.dropWhile isPySpace).reverse
  match cs with
  | '+' :: rest => parseFloatL rest
  | '-' :: rest => (parseFloatL rest).map pfNeg
  | _ => parseFloatL cs

/-- Python `round(x)` with no digits argument: round half to even, giving an
integer.  `f` is the floor of `x`; `r2` is twice the numerator of the
fractional part, compared against the denominator to classify the fraction
as below, above or exactly one half. -/
def pyRound (q : PyFloat) : Int :=
  let f : Int := Int.fdiv q.num (q.den : Int)
  let r2 : Int := 2 * (q.num - f * (q.den : Int))
  if r2 < (q.den : Int) then f
  else if (q.den : Int) < r2 then f + 1
  else if f % 2 = 0 then f else f + 1

/-- Organism name normalization, `_BrendaBaseClass._normalize_name`: when
whitespace splitting yields fewer tokens than underscore splitting the
underscores are turned into spaces, then only the first two whitespace
tokens are kept, joined by one space, lower cased and capitalized. -/
def normalizeName (organism : String) : String :=
  let cs := organism.data
  let cs1 :=
    if (pyWordsL cs).length < (splitOnCharL '_' cs).length
    then joinSpaceL (splitOnCharL '_' cs) else cs
  let firstTwo := joinSpaceL ((pyWordsL cs1).take 2)
  (pyCapitalizeL (pyLowerL firstTwo)).asString

set_option synthInstance.maxSize 1024

deriving instance DecidableEq for Except

/-- Python exceptions that the parser can raise: `IndexError` from list
indexing, `ValueError` from `float()` or the explicit `raise ValueError`,
and `AssertionError` from the table header check. -/
inductive PyErr where
  | indexError
  | valueError
  | assertionError
  deriving DecidableEq, Repr

/-- Value held in the first data cell of a row: the raw cell string for non
numeric tables, a float from a direct `float(value)` parse, or an int from
`round(...)` of a two-value range. -/
inductive PyVal where
  | str (s : String)
  | float (q : PyFloat)
  | int (z : Int)
  deriving DecidableEq, Repr

/-- One table row div, seen through the only two observations the parser
makes of it: `div.get_text(',')` and the texts of its `<a>` descendants. -/
structure Row where
  links : List String
  text : String
  deriving DecidableEq, Repr

/-- One table block div: its header texts and the four row collections
(css classes `row rgrey1`, `row rgrey2`, `hidden rgrey1`, `hidden rgrey2`). -/
structure BTable where
  headers : List String
  grey1 : List Row
  grey2 : List Row
  hidden1 : List Row
  hidden2 : List Row

/-- A document: an association from div id to table block, supporting
`soup.find("div", {"id": table_id})`. -/
structure Doc where
  tables : List (String × BTable)

/-- Lookup in a Python `dict` modelled as an association list (first match,
like a dict which never holds duplicate keys). -/
def alGet {α : Type} : List (String × α) → String → Option α
  | [], _ => none
  | (k', v) :: rest, k => if k' = k then some v else alGet rest k

/-- In-place update of a Python `dict` key (insertion order preserved):
if the key is present its value is rewritten in place, else the pair is
appended at the end.  `f` receives the old value if any. -/
def alUpdate {α : Type} (m : List (String × α)) (k : String) (f : Option α → α) :
    List (String × α) :=
  match m with
  | [] => [(k, f none)]
  | (k', v) :: rest => if k' = k then (k', f (some v)) :: rest else (k', v) :: alUpdate rest k f

/-- Keys of a modelled dict. -/
def keysOf {α : Type} (m : List (String × α)) : List String := m.map Prod.fst

/-- Numeric value coercion from the single-div parsers (the body of
`if self.numeric is True`): try `float(value)`; on failure try a
two-element `-` split (rejecting a `,additionalinformation` bound, note the
leading comma), then a two-element `to` split, in both cases rounding the
mean of the bounds; then the `additionalinformation` sentinel; anything
else raises `ValueError`.  A `float()` failure on a bound inside the
`except` block also raises (propagates out of the handler). -/
def coerceValue (value : String) : Except PyErr (Option PyVal) :=
  match pyFloat? value with
  | some q => .ok (some (.float q))
  | none =>
    match pySplitChar '-' value with
    | [a, b] =>
      if a = ",additionalinformation" ∨ b = ",additionalinformation" then .ok none
      else
        match pyFloat? a, pyFloat? b with
        | some x, some y => .ok (some (.int (pyRound (pfDivN (pfAdd x y) 2))))
        | _, _ => .error .valueError
    | _ =>
      match pySplitTo value with
      | [a, b] =>
        match pyFloat? a, pyFloat? b with
        | some x, some y => .ok (some (.int (pyRound (pfDivN (pfAdd x y) 2))))
        | _, _ => .error .valueError
      | _ =>
        if value = "additionalinformation" then .ok none
        else .error .valueError

/-- The inline-link candidate identifiers of a row:
`list(filter(None, [a.get_text() for a in div.find_all("a")]))`. -/
def rowPotential (row : Row) : List String := row.links.filter (fun s => s ≠ "")

/-- The flattened text of a row split on line breaks:
`div.get_text(',').split('\n')`. -/
def rowParts (row : Row) : List String := pySplitChar '\n' row.text

/-- The raw identifier tokens of an identifier cell:
`re.split(',|and', cell.replace(' ', '').replace(';', '').replace('-', ''))`. -/
def rawTokens (cell : String) : List String :=
  (reSplitCommaAndL (removeCharL '-' (removeCharL ';' (removeCharL ' ' cell.data)))).map
    List.asString

/-- Record produced for one row of a depth-three table:
`(value, organism, uniprot_id_list)`. -/
abbrev Rec3 := PyVal × String × List String

/-- Record produced for one row of a depth-four table:
`(value, information, organism, uniprot_id_list)`. -/
abbrev Rec4 := PyVal × String × String × List String

/-- Record produced for one row of the organism table:
`(organism, uniprot_id_list)`. -/
abbrev RecO := String × List String

/-- Value handling of the single-div parsers: the coercion applies only
when the table is numeric (`if self.numeric is True`); otherwise the value
stays the raw cell string. -/
def valueStep (numeric : Bool) (value0 : String) : Except PyErr (Option PyVal) :=
  if numeric then coerceValue value0 else .ok (some (.str value0))

/-- `_ThreeLevelDiv._parse_single_div`: reject rows with at most three text
parts, coerce the value cell (cell 1) when numeric, reject the
`additionalinformation` sentinel, normalize the organism (cell 2), and keep
exactly those identifier tokens of cell 3 that occur among the inline-link
candidates. -/
def three_parseSingle (numeric : Bool) (row : Row) : Except PyErr (Option Rec3) :=
  let potential := rowPotential row
  let parts := rowParts row
  if 3 < parts.length then
    let value0 := removeChar ' ' (pyStripChar ',' (parts.getD 1 ""))
    match valueStep numeric value0 with
    | .error e => .error e
    | .ok none => .ok none
    | .ok (some v) =>
      if v = .str "additionalinformation" then .ok none
      else
        let organism := normalizeName (pyStripChar ',' (parts.getD 2 ""))
        let ids := (rawTokens (parts.getD 3 "")).filter (fun s => potential.contains s)
        if ids = [""] then .ok none
        else .ok (some (v, organism, ids))
  else .ok none

/-- `_FourLevelDiv._parse_single_div`: same as the depth-three parser with
an information cell (cell 2) before the organism (cell 3); the identifier
cell is `parts[4]`, whose access raises `IndexError` when only four parts
exist. -/
def four_parseSingle (numeric : Bool) (row : Row) : Except PyErr (Option Rec4) :=
  let potential := rowPotential row
  let parts := rowParts row
  if 3 < parts.length then
    let value0 := removeChar ' ' (pyStripChar ',' (parts.getD 1 ""))
    match valueStep numeric value0 with
    | .error e => .error e
    | .ok none => .ok none
    | .ok (some v) =>
      if v = .str "additionalinformation" then .ok none
      else
        let information := pyStripChar ',' (parts.getD 2 "")
        let organism := normalizeName (pyStripChar ',' (parts.getD 3 ""))
        match parts[4]? with
        | none => .error .indexError
        | some p4 =>
          let ids := (rawTokens p4).filter (fun s => potential.contains s)
          if ids = [""] then .ok none
          else .ok (some (v, information, organism, ids))
  else .ok none

/-- `Organism._parse_single_div`: the organism is cell 1 and the identifier
cell is `parts[4]` (raising `IndexError` when only four parts exist); the
identifier filter additionally drops empty tokens. -/
def organism_parseSingle (row : Row) : Except PyErr (Option RecO) :=
  let potential := rowPotential row
  let parts := rowParts row
  if 3 < parts.length then
    let organism := normalizeName (pyStripChar ',' (parts.getD 1 ""))
    match parts[4]? with
    | none => .error .indexError
    | some p4 =>
      let ids := (rawTokens p4).filter (fun s => potential.contains s && s ≠ "")
      if ids = [""] then .ok none
      else .ok (some (organism, ids))
  else .ok none

/-- Per-organism data of a depth-three table: uniprot id to value list. -/
abbrev UidDict2 := List (String × List PyVal)

/-- Parsed row group of a depth-three table: organism to per-organism data. -/
abbrev Dict2 := List (String × UidDict2)

/-- Per-identifier data of a depth-four table: information to value list. -/
abbrev InfoDict := List (String × List PyVal)

/-- Per-organism data of a depth-four table. -/
abbrev UidDict3 := List (String × InfoDict)

/-- Parsed row group of a depth-four table. -/
abbrev Dict3 := List (String × UidDict3)

/-- Parsed row group of the organism table: organism to identifier list. -/
abbrev DictO := List (String × List String)

/-- Insertion of one depth-three record into a group dict, from
`_ThreeLevelDiv._split_divs`: ensure the organism key, then append the value
under every listed identifier. -/
def three_insertRecord (m : Dict2) (r : Rec3) : Dict2 :=
  alUpdate m r.2.1 (fun o =>
    r.2.2.foldl (fun im uid => alUpdate im uid (fun ov => ov.getD [] ++ [r.1])) (o.getD []))

/-- Worker for `_ThreeLevelDiv._split_divs`: parse each div, skip `None`
results, insert the rest; parse errors propagate. -/
def three_splitDivsAux (numeric : Bool) (acc : Dict2) : List Row → Except PyErr Dict2
  | [] => .ok acc
  | row :: rest =>
    match three_parseSingle numeric row with
    | .error e => .error e
    | .ok none => three_splitDivsAux numeric acc rest
    | .ok (some r) => three_splitDivsAux numeric (three_insertRecord acc r) rest

/-- `_ThreeLevelDiv._split_divs`. -/
def three_splitDivs (numeric : Bool) (rows : List Row) : Except PyErr Dict2 :=
  three_splitDivsAux numeric [] rows

/-- Insertion of one depth-four record, from `_FourLevelDiv._split_divs`:
ensure organism and identifier keys, then append the value under the
information key. -/
def four_insertRecord (m : Dict3) (r : Rec4) : Dict3 :=
  alUpdate m r.2.2.1 (fun o =>
    r.2.2.2.foldl
      (fun im uid =>
        alUpdate im uid (fun oi => alUpdate (oi.getD []) r.2.1 (fun ov => ov.getD [] ++ [r.1])))
      (o.getD []))

/-- Worker for `_FourLevelDiv._split_divs`. -/
def four_splitDivsAux (numeric : Bool) (acc : Dict3) : List Row → Except PyErr Dict3
  | [] => .ok acc
  | row :: rest =>
    match four_parseSingle numeric row with
    | .error e => .error e
    | .ok none => four_splitDivsAux numeric acc rest
    | .ok (some r) => four_splitDivsAux numeric (four_insertRecord acc r) rest

/-- `_FourLevelDiv._split_divs`. -/
def four_splitDivs (numeric : Bool) (rows : List Row) : Except PyErr Dict3 :=
  four_splitDivsAux numeric [] rows

/-- Insertion of one organism record, from `Organism._split_divs`: ensure the
organism key, then append every listed identifier. -/
def organism_insertRecord (m : DictO) (r : RecO) : DictO :=
  alUpdate m r.1 (fun o => o.getD [] ++ r.2)

/-- Worker for `Organism._split_divs`. -/
def organism_splitDivsAux (acc : DictO) : List Row → Except PyErr DictO
  | [] => .ok acc
  | row :: rest =>
    match organism_parseSingle row with
    | .error e => .error e
    | .ok none => organism_splitDivsAux acc rest
    | .ok (some r) => organism_splitDivsAux (organism_insertRecord acc r) rest

/-- `Organism._split_divs`. -/
def organism_splitDivs (rows : List Row) : Except PyErr DictO :=
  organism_splitDivsAux [] rows

/-- `_BrendaBaseClass._get_table_divs`: find the div with the table id
(absence gives four `None`s, modelled as `none`), assert that some header
contains the table name, then split the four row collections in order. -/
def getTableDivs {G : Type} (doc : Doc) (tableId tableName : String)
    (split : List Row → Except PyErr G) : Except PyErr (Option (G × G × G × G)) :=
  match alGet doc.tables tableId with
  | none => .ok none
  | some t =>
    if t.headers.any (fun h => containsSubL tableName.data h.data) then
      match split t.grey1 with
      | .error e => .error e
      | .ok g1 =>
        match split t.grey2 with
        | .error e => .error e
        | .ok g2 =>
          match split t.hidden1 with
          | .error e => .error e
          | .ok g3 =>
            match split t.hidden2 with
            | .error e => .error e
            | .ok g4 => .ok (some (g1, g2, g3, g4))
    else .error .assertionError

/-- Merge of one organism's depth-three data into the combined per-organism
dict, with the found flag set per merged identifier (the inner loop of
`_ThreeLevelDiv.get_data`). -/
def three_mergeOrg (st : UidDict2 × Bool) (d : UidDict2) : UidDict2 × Bool :=
  d.foldl (fun st p => (alUpdate st.1 p.1 (fun o => o.getD [] ++ p.2), true)) st

/-- Merge of one parsed row group into the combined data (the outer loop of
`_ThreeLevelDiv.get_data`); organisms with empty data are skipped. -/
def three_combineGroup (st : Dict2 × Bool) (g : Dict2) : Dict2 × Bool :=
  g.foldl
    (fun st p =>
      if p.2 = [] then st
      else
        let r := three_mergeOrg ((alGet st.1 p.1).getD [], st.2) p.2
        (alUpdate st.1 p.1 (fun _ => r.1), r.2))
    st

/-- Merge of the four row groups of a depth-three table in their fixed
order, starting from an empty dict and a `false` found flag. -/
def three_combineAll (q : Dict2 × Dict2 × Dict2 × Dict2) : Dict2 × Bool :=
  [q.1, q.2.1, q.2.2.1, q.2.2.2].foldl three_combineGroup ([], false)

/-- `_ThreeLevelDiv.get_data` after table location: `None` when the table
was absent, else the merged data guarded by the found flag. -/
def three_getData (td : Option (Dict2 × Dict2 × Dict2 × Dict2)) : Option Dict2 :=
  match td with
  | none => none
  | some q =>
    let st := three_combineAll q
    if st.2 then some st.1 else none

/-- Innermost merge loop of `_FourLevelDiv.get_data`: information keys of
one identifier, flag set per merged information entry. -/
def four_mergeInfo (st : InfoDict × Bool) (infos : InfoDict) : InfoDict × Bool :=
  infos.foldl (fun st p => (alUpdate st.1 p.1 (fun o => o.getD [] ++ p.2), true)) st

/-- Middle merge loop of `_FourLevelDiv.get_data`: identifier keys of one
organism (all of them, even those with empty information dicts). -/
def four_mergeUid (st : UidDict3 × Bool) (d : UidDict3) : UidDict3 × Bool :=
  d.foldl
    (fun st p =>
      let r := four_mergeInfo ((alGet st.1 p.1).getD [], st.2) p.2
      (alUpdate st.1 p.1 (fun _ => r.1), r.2))
    st

/-- Outer merge loop of `_FourLevelDiv.get_data`; organisms with empty data
are skipped. -/
def four_combineGroup (st : Dict3 × Bool) (g : Dict3) : Dict3 × Bool :=
  g.foldl
    (fun st p =>
      if p.2 = [] then st
      else
        let r := four_mergeUid ((alGet st.1 p.1).getD [], st.2) p.2
        (alUpdate st.1 p.1 (fun _ => r.1), r.2))
    st

/-- Merge of the four row groups of a depth-four table in their fixed
order. -/
def four_combineAll (q : Dict3 × Dict3 × Dict3 × Dict3) : Dict3 × Bool :=
  [q.1, q.2.1, q.2.2.1, q.2.2.2].foldl four_combineGroup ([], false)

/-- `_FourLevelDiv.get_data` after table location. -/
def four_getData (td : Option (Dict3 × Dict3 × Dict3 × Dict3)) : Option Dict3 :=
  match td with
  | none => none
  | some q =>
    let st := four_combineAll q
    if st.2 then some st.1 else none

/-- Merge loop of `Organism.get_data`: flag set per organism with non-empty
identifier list, identifier lists concatenated. -/
def organism_combineGroup (st : DictO × Bool) (g : DictO) : DictO × Bool :=
  g.foldl
    (fun st p =>
      if p.2 = [] then st
      else (alUpdate st.1 p.1 (fun o => o.getD [] ++ p.2), true))
    st

/-- Merge of the four row groups of the organism table in their fixed
order. -/
def organism_combineAll (q : DictO × DictO × DictO × DictO) : DictO × Bool :=
  [q.1, q.2.1, q.2.2.1, q.2.2.2].foldl organism_combineGroup ([], false)

/-- `Organism.get_data` after table location. -/
def organism_getData (td : Option (DictO × DictO × DictO × DictO)) : Option DictO :=
  match td with
  | none => none
  | some q =>
    let st := organism_combineAll q
    if st.2 then some st.1 else none

/-- Full extraction of a depth-three table class (construction plus
`get_data`): locate and split the table, then merge. -/
def threeLevelExtract (tableId tableName : String) (numeric : Bool) (doc : Doc) :
    Except PyErr (Option Dict2) :=
  match getTableDivs doc tableId tableName (three_splitDivs numeric) with
  | .error e => .error e
  | .ok td => .ok (three_getData td)

/-- Full extraction of a depth-four table class. -/
def fourLevelExtract (tableId tableName : String) (numeric : Bool) (doc : Doc) :
    Except PyErr (Option Dict3) :=
  match getTableDivs doc tableId tableName (four_splitDivs numeric) with
  | .error e => .error e
  | .ok td => .ok (four_getData td)

/-- Full extraction of the organism table class. -/
def organismExtract (doc : Doc) : Except PyErr (Option DictO) :=
  match getTableDivs doc "tab20" "ORGANISM" organism_splitDivs with
  | .error e => .error e
  | .ok td => .ok (organism_getData td)

/-- The `Km` table class: div id `tab12`, header `KM VALUE [mM]`, numeric,
depth four. -/
def kmExtract (doc : Doc) : Except PyErr (Option Dict3) :=
  fourLevelExtract "tab12" "KM VALUE [mM]" true doc

/-- The `Cofactor` table class: div id `tab48`, header `COFACTOR`, not
numeric, depth three. -/
def cofactorExtract (doc : Doc) : Except PyErr (Option Dict2) :=
  threeLevelExtract "tab48" "COFACTOR" false doc

/-- The `TemperatureOptimum` table class: div id `tab41`, header
`TEMPERATURE OPTIMUM`, numeric, depth three. -/
def temperatureOptimumExtract (doc : Doc) : Except PyErr (Option Dict2) :=
  threeLevelExtract "tab41" "TEMPERATURE OPTIMUM" true doc

-- scratch checks
example : coerceValue "12.0-14.0" = .ok (some (.int 13)) := by decide
example : coerceValue "5to7" = .ok (some (.int 6)) := by decide
example : coerceValue "additionalinformation" = .ok none := by decide
example : coerceValue "0.018-additionalinformation" = .error .valueError := by decide
example : coerceValue "0.018,-,additionalinformation" = .ok none := by decide
example : coerceValue "abc" = .error .valueError := by decide

example :
    three_parseSingle false { links := [], text := "a\n22\nHomo sapiens\nP12345" } =
      .ok (some (.str "22", "Homo sapiens", [])) := by decide

example :
    four_parseSingle false { links := ["P12345"], text := "a\nb\nHomo sapiens\nP12345" } =
      .error .indexError := by decide
example :
    organism_parseSingle { links := ["P12345"], text := "a\nb\nHomo sapiens\nP12345" } =
      .error .indexError := by decide

example :
    kmExtract
      { tables :=
          [("tab12",
            { headers := ["KM VALUE [mM]"]
              grey1 := [{ links := ["P12345"], text := "x\n0.5\ncofactor X\nHomo sapiens\nP12345" }]
              grey2 := []
              hidden1 := [{ links := ["P12345"], text := "x\n0.5\ncofactor X\nHomo sapiens\nP12345" }]
              hidden2 := [] })] } =
      .ok (some [("Homo sapiens", [("P12345", [("cofactor X", [.float ⟨1, 2⟩, .float ⟨1, 2⟩])])])]) := by
  decide

example :
    organismExtract
      { tables :=
          [("tab20",
            { headers := ["ORGANISM"]
              grey1 :=
                [{ links := ["Q9XYZ1"], text := "x\nHomo sapiens\na\nb\nQ9XYZ1" },
                 { links := ["Q9XYZ1", "Q9XYZ2"], text := "x\nHomo sapiens\na\nb\nQ9XYZ1, Q9XYZ2" }]
              grey2 := []
              hidden1 := []
              hidden2 := [] })] } =
      .ok (some [("Homo sapiens", ["Q9XYZ1", "Q9XYZ1", "Q9XYZ2"])]) := by decide

example :
    organismExtract
      { tables :=
          [("tab20",
            { headers := ["ORGANISM"]
              grey1 := [{ links := ["Q9XYZ1"], text := "x\nno activity in Homo sapiens\na\nb\nQ9XYZ1" }]
              grey2 := []
              hidden1 := []
              hidden2 := [] })] } =
      .ok (some [("No activity", ["Q9XYZ1"])]) := by decide

theorem alGet_update_self {α : Type} (m : List (String × α)) (k : String) (f : Option α → α) :
    alGet (alUpdate m k f) k = some (f (alGet m k)) := by
  induction m with
  | nil => simp [alGet, alUpdate]
  | cons p rest ih =>
    obtain ⟨k', v⟩ := p
    by_cases h : k' = k
    · subst h
      simp [alGet, alUpdate]
    · simp [alGet, alUpdate, h, ih]

theorem alGet_update_other {α : Type} (m : List (String × α)) (k k' : String)
    (f : Option α → α) (h : k' ≠ k) : alGet (alUpdate m k f) k' = alGet m k' := by
  induction m with
  | nil => simp [alGet, alUpdate, Ne.symm h]
  | cons p rest ih =>
    obtain ⟨k0, v⟩ := p
    by_cases h0 : k0 = k
    · subst h0
      simp [alGet, alUpdate, Ne.symm h]
    · by_cases h1 : k0 = k'
      · subst h1
        simp [alGet, alUpdate, h0]
      · simp [alGet, alUpdate, h0, h1, ih]

theorem alGet_eq_none_of_not_mem_keys {α : Type} (m : List (String × α)) (k : String)
    (h : k ∉ keysOf m) : alGet m k = none := by
  induction m with
  | nil => simp [alGet]
  | cons p rest ih =>
    obtain ⟨k0, v⟩ := p
    simp only [keysOf, List.map_cons, List.mem_cons] at h
    push_neg at h
    simp [alGet, Ne.symm h.1]
    exact ih (by simpa [keysOf] using h.2)

-- claim C2: no-data results

theorem three_getData_none_iff (td : Option (Dict2 × Dict2 × Dict2 × Dict2)) :
    three_getData td = none ↔ td = none ∨ ∃ q, td = some q ∧ (three_combineAll q).2 = false := by
  cases td with
  | none => simp [three_getData]
  | some q =>
    cases h : (three_combineAll q).2 <;> simp [three_getData, h]

theorem four_getData_none_iff (td : Option (Dict3 × Dict3 × Dict3 × Dict3)) :
    four_getData td = none ↔ td = none ∨ ∃ q, td = some q ∧ (four_combineAll q).2 = false := by
  cases td with
  | none => simp [four_getData]
  | some q =>
    cases h : (four_combineAll q).2 <;> simp [four_getData, h]

theorem organism_getData_none_iff (td : Option (DictO × DictO × DictO × DictO)) :
    organism_getData td = none ↔
      td = none ∨ ∃ q, td = some q ∧ (organism_combineAll q).2 = false := by
  cases td with
  | none => simp [organism_getData]
  | some q =>
    cases h : (organism_combineAll q).2 <;> simp [organism_getData, h]

theorem getTableDivs_absent {G : Type} (doc : Doc) (tableId tableName : String)
    (split : List Row → Except PyErr G) (h : alGet doc.tables tableId = none) :
    getTableDivs doc tableId tableName split = .ok none := by
  unfold getTableDivs
  rw [h]

/-- C2: for every document and table class, `get_data` gives the no-data
result `None` exactly when either the table div was absent (all four row
groups `None`) or the found-at-least-one flag stayed `false` over all four
merged groups; and when the table div is absent the whole extraction
returns `None` without raising. -/
theorem getData_no_data_iff :
    (∀ (td : Option (Dict2 × Dict2 × Dict2 × Dict2)),
        three_getData td = none ↔
          td = none ∨ ∃ q, td = some q ∧ (three_combineAll q).2 = false) ∧
    (∀ (td : Option (Dict3 × Dict3 × Dict3 × Dict3)),
        four_getData td = none ↔
          td = none ∨ ∃ q, td = some q ∧ (four_combineAll q).2 = false) ∧
    (∀ (td : Option (DictO × DictO × DictO × DictO)),
        organism_getData td = none ↔
          td = none ∨ ∃ q, td = some q ∧ (organism_combineAll q).2 = false) ∧
    (∀ (tableId tableName : String) (numeric : Bool) (doc : Doc),
        alGet doc.tables tableId = none →
          threeLevelExtract tableId tableName numeric doc = .ok none) ∧
    (∀ (tableId tableName : String) (numeric : Bool) (doc : Doc),
        alGet doc.tables tableId = none →
          fourLevelExtract tableId tableName numeric doc = .ok none) ∧
    (∀ doc : Doc, alGet doc.tables "tab20" = none → organismExtract doc = .ok none) := by
  refine ⟨three_getData_none_iff, four_getData_none_iff, organism_getData_none_iff, ?_, ?_, ?_⟩
  · intro tid tname numeric doc h
    unfold threeLevelExtract
    rw [getTableDivs_absent doc tid tname _ h]
    rfl
  · intro tid tname numeric doc h
    unfold fourLevelExtract
    rw [getTableDivs_absent doc tid tname _ h]
    rfl
  · intro doc h
    unfold organismExtract
    rw [getTableDivs_absent doc "tab20" "ORGANISM" _ h]
    rfl

/-- Closed instantiation of `getData_no_data_iff`: on a document with no
tables at all, the temperature optimum extraction returns the no-data
result, and an absent parse state maps to `None`. -/
theorem getData_no_data_iff_witness :
    temperatureOptimumExtract { tables := [] } = .ok none ∧
    three_getData none = none := by
  constructor
  · exact getData_no_data_iff.2.2.2.1 "tab41" "TEMPERATURE OPTIMUM" true { tables := [] } rfl
  · exact (getData_no_data_iff.1 none).mpr (Or.inl rfl)

-- merge additivity (claims C3, C7)

/-- Value list stored under one key of a flat dict, empty when absent. -/
def vals1 (m : List (String × List PyVal)) (k : String) : List PyVal := (alGet m k).getD []

/-- Value list of a depth-three group under an organism and identifier. -/
def vals2 (m : Dict2) (org uid : String) : List PyVal := vals1 ((alGet m org).getD []) uid

/-- Value list of a per-organism depth-four dict under an identifier and
information key. -/
def vals2u (m : UidDict3) (uid info : String) : List PyVal :=
  vals1 ((alGet m uid).getD []) info

/-- Value list of a depth-four group under organism, identifier and
information keys. -/
def vals3 (m : Dict3) (org uid info : String) : List PyVal :=
  vals2u ((alGet m org).getD []) uid info

/-- Identifier list of an organism group under an organism key. -/
def valsO (m : DictO) (org : String) : List String := (alGet m org).getD []

/-- Keyword-distinctness of a depth-three group dict, as holds for any
Python dict of dicts. -/
def wfDict2 (g : Dict2) : Prop := (keysOf g).Nodup ∧ ∀ p ∈ g, (keysOf p.2).Nodup

/-- Keyword-distinctness of a depth-four group dict. -/
def wfDict3 (g : Dict3) : Prop :=
  (keysOf g).Nodup ∧ ∀ p ∈ g, (keysOf p.2).Nodup ∧ ∀ q ∈ p.2, (keysOf q.2).Nodup

instance (g : Dict2) : Decidable (wfDict2 g) := by unfold wfDict2; infer_instance

instance (g : Dict3) : Decidable (wfDict3 g) := by unfold wfDict3; infer_instance

theorem three_mergeOrg_vals (d : UidDict2) :
    ∀ (st : UidDict2 × Bool) (uid : String), (keysOf d).Nodup →
      vals1 (three_mergeOrg st d).1 uid = vals1 st.1 uid ++ vals1 d uid := by
  induction d with
  | nil => intro st uid _; simp [three_mergeOrg, vals1, alGet]
  | cons p rest ih =>
    intro st uid hnd
    obtain ⟨k, vs⟩ := p
    simp only [keysOf, List.map_cons, List.nodup_cons] at hnd
    have hstep :
        three_mergeOrg st ((k, vs) :: rest) =
          three_mergeOrg (alUpdate st.1 k (fun o => o.getD [] ++ vs), true) rest := by
      simp [three_mergeOrg]
    rw [hstep, ih _ uid (by simpa [keysOf] using hnd.2)]
    by_cases h : uid = k
    · subst h
      have hrest : alGet rest uid = none :=
        alGet_eq_none_of_not_mem_keys rest uid (by simpa [keysOf] using hnd.1)
      simp [vals1, alGet_update_self, alGet, hrest]
    · simp [vals1, alGet_update_other _ _ _ _ h, alGet, Ne.symm h]

theorem three_combineGroup_vals (g : Dict2) :
    ∀ (st : Dict2 × Bool) (org uid : String), wfDict2 g →
      vals2 (three_combineGroup st g).1 org uid = vals2 st.1 org uid ++ vals2 g org uid := by
  induction g with
  | nil => intro st org uid _; simp [three_combineGroup, vals2, vals1, alGet]
  | cons p rest ih =>
    intro st org uid hwf
    obtain ⟨k, d⟩ := p
    obtain ⟨hnd, hin⟩ := hwf
    simp only [keysOf, List.map_cons, List.nodup_cons] at hnd
    have hwfrest : wfDict2 rest :=
      ⟨by simpa [keysOf] using hnd.2, fun q hq => hin q (List.mem_cons_of_mem _ hq)⟩
    by_cases hd : d = []
    · subst hd
      have hstep : three_combineGroup st (((k, []) : String × UidDict2) :: rest) =
          three_combineGroup st rest := by
        simp [three_combineGroup]
      rw [hstep, ih st org uid hwfrest]
      by_cases h : org = k
      · subst h
        have hrest : alGet rest org = none :=
          alGet_eq_none_of_not_mem_keys rest org (by simpa [keysOf] using hnd.1)
        simp [vals2, vals1, alGet, hrest]
      · simp [vals2, vals1, alGet, Ne.symm h]
    · have hstep : three_combineGroup st (((k, d) : String × UidDict2) :: rest) =
          three_combineGroup
            (alUpdate st.1 k
              (fun _ => (three_mergeOrg ((alGet st.1 k).getD [], st.2) d).1),
             (three_mergeOrg ((alGet st.1 k).getD [], st.2) d).2) rest := by
        simp [three_combineGroup, hd]
      rw [hstep, ih _ org uid hwfrest]
      by_cases h : org = k
      · subst h
        have hrest : alGet rest org = none :=
          alGet_eq_none_of_not_mem_keys rest org (by simpa [keysOf] using hnd.1)
        have hdn : (keysOf d).Nodup := (hin (org, d) (List.mem_cons_self _ _))
        simp only [vals2, alGet_update_self, Option.getD_some, alGet, if_pos rfl, hrest,
          Option.getD_none]
        rw [three_mergeOrg_vals d _ uid hdn]
        simp [vals1, alGet]
      · simp [vals2, vals1, alGet_update_other _ _ _ _ h, alGet, Ne.symm h]

theorem four_mergeInfo_vals (d : InfoDict) :
    ∀ (st : InfoDict × Bool) (info : String), (keysOf d).Nodup →
      vals1 (four_mergeInfo st d).1 info = vals1 st.1 info ++ vals1 d info := by
  induction d with
  | nil => intro st info _; simp [four_mergeInfo, vals1, alGet]
  | cons p rest ih =>
    intro st info hnd
    obtain ⟨k, vs⟩ := p
    simp only [keysOf, List.map_cons, List.nodup_cons] at hnd
    have hstep :
        four_mergeInfo st ((k, vs) :: rest) =
          four_mergeInfo (alUpdate st.1 k (fun o => o.getD [] ++ vs), true) rest := by
      simp [four_mergeInfo]
    rw [hstep, ih _ info (by simpa [keysOf] using hnd.2)]
    by_cases h : info = k
    · subst h
      have hrest : alGet rest info = none :=
        alGet_eq_none_of_not_mem_keys rest info (by simpa [keysOf] using hnd.1)
      simp [vals1, alGet_update_self, alGet, hrest]
    · simp [vals1, alGet_update_other _ _ _ _ h, alGet, Ne.symm h]

theorem four_mergeUid_vals (d : UidDict3) :
    ∀ (st : UidDict3 × Bool) (uid info : String),
      (keysOf d).Nodup → (∀ p ∈ d, (keysOf p.2).Nodup) →
      vals2u (four_mergeUid st d).1 uid info = vals2u st.1 uid info ++ vals2u d uid info := by
  induction d with
  | nil => intro st uid info _ _; simp [four_mergeUid, vals2u, vals1, alGet]
  | cons p rest ih =>
    intro st uid info hnd hin
    obtain ⟨k, infos⟩ := p
    simp only [keysOf, List.map_cons, List.nodup_cons] at hnd
    have hstep :
        four_mergeUid st ((k, infos) :: rest) =
          four_mergeUid
            (alUpdate st.1 k (fun _ => (four_mergeInfo ((alGet st.1 k).getD [], st.2) infos).1),
             (four_mergeInfo ((alGet st.1 k).getD [], st.2) infos).2) rest := by
      simp [four_mergeUid]
    rw [hstep,
      ih _ uid info (by simpa [keysOf] using hnd.2)
        (fun q hq => hin q (List.mem_cons_of_mem _ hq))]
    by_cases h : uid = k
    · subst h
      have hrest : alGet rest uid = none :=
        alGet_eq_none_of_not_mem_keys rest uid (by simpa [keysOf] using hnd.1)
      simp only [vals2u, alGet_update_self, Option.getD_some, alGet, if_pos rfl, hrest,
        Option.getD_none]
      rw [four_mergeInfo_vals infos _ info (hin (uid, infos) (List.mem_cons_self _ _))]
      simp [vals1, alGet]
    · simp [vals2u, vals1, alGet_update_other _ _ _ _ h, alGet, Ne.symm h]

theorem four_combineGroup_vals (g : Dict3) :
    ∀ (st : Dict3 × Bool) (org uid info : String), wfDict3 g →
      vals3 (four_combineGroup st g).1 org uid info =
        vals3 st.1 org uid info ++ vals3 g org uid info := by
  induction g with
  | nil => intro st org uid info _; simp [four_combineGroup, vals3, vals2u, vals1, alGet]
  | cons p rest ih =>
    intro st org uid info hwf
    obtain ⟨k, d⟩ := p
    obtain ⟨hnd, hin⟩ := hwf
    simp only [keysOf, List.map_cons, List.nodup_cons] at hnd
    have hwfrest : wfDict3 rest :=
      ⟨by simpa [keysOf] using hnd.2, fun q hq => hin q (List.mem_cons_of_mem _ hq)⟩
    by_cases hd : d = []
    · subst hd
      have hstep : four_combineGroup st (((k, []) : String × UidDict3) :: rest) =
          four_combineGroup st rest := by
        simp [four_combineGroup]
      rw [hstep, ih st org uid info hwfrest]
      by_cases h : org = k
      · subst h
        have hrest : alGet rest org = none :=
          alGet_eq_none_of_not_mem_keys rest org (by simpa [keysOf] using hnd.1)
        simp [vals3, vals2u, vals1, alGet, hrest]
      · simp [vals3, vals2u, vals1, alGet, Ne.symm h]
    · have hstep : four_combineGroup st (((k, d) : String × UidDict3) :: rest) =
          four_combineGroup
            (alUpdate st.1 k
              (fun _ => (four_mergeUid ((alGet st.1 k).getD [], st.2) d).1),
             (four_mergeUid ((alGet st.1 k).getD [], st.2) d).2) rest := by
        simp [four_combineGroup, hd]
      rw [hstep, ih _ org uid info hwfrest]
      by_cases h : org = k
      · subst h
        have hrest : alGet rest org = none :=
          alGet_eq_none_of_not_mem_keys rest org (by simpa [keysOf] using hnd.1)
        have hdwf := hin (org, d) (List.mem_cons_self _ _)
        simp only [vals3, alGet_update_self, Option.getD_some, alGet, if_pos rfl, hrest,
          Option.getD_none]
        rw [four_mergeUid_vals d _ uid info hdwf.1 hdwf.2]
        simp [vals2u, vals1, alGet]
      · simp [vals3, vals2u, vals1, alGet_update_other _ _ _ _ h, alGet, Ne.symm h]

theorem organism_combineGroup_vals (g : DictO) :
    ∀ (st : DictO × Bool) (org : String), (keysOf g).Nodup →
      valsO (organism_combineGroup st g).1 org = valsO st.1 org ++ valsO g org := by
  induction g with
  | nil => intro st org _; simp [organism_combineGroup, valsO, alGet]
  | cons p rest ih =>
    intro st org hnd
    obtain ⟨k, ids⟩ := p
    simp only [keysOf, List.map_cons, List.nodup_cons] at hnd
    by_cases hd : ids = []
    · subst hd
      have hstep : organism_combineGroup st (((k, []) : String × List String) :: rest) =
          organism_combineGroup st rest := by
        simp [organism_combineGroup]
      rw [hstep, ih st org (by simpa [keysOf] using hnd.2)]
      by_cases h : org = k
      · subst h
        have hrest : alGet rest org = none :=
          alGet_eq_none_of_not_mem_keys rest org (by simpa [keysOf] using hnd.1)
        simp [valsO, alGet, hrest]
      · simp [valsO, alGet, Ne.symm h]
    · have hstep : organism_combineGroup st (((k, ids) : String × List String) :: rest) =
          organism_combineGroup (alUpdate st.1 k (fun o => o.getD [] ++ ids), true) rest := by
        simp [organism_combineGroup, hd]
      rw [hstep, ih _ org (by simpa [keysOf] using hnd.2)]
      by_cases h : org = k
      · subst h
        have hrest : alGet rest org = none :=
          alGet_eq_none_of_not_mem_keys rest org (by simpa [keysOf] using hnd.1)
        simp [valsO, alGet_update_self, alGet, hrest]
      · simp [valsO, alGet_update_other _ _ _ _ h, alGet, Ne.symm h]

theorem three_combineAll_vals (g1 g2 g3 g4 : Dict2) (org uid : String)
    (h1 : wfDict2 g1) (h2 : wfDict2 g2) (h3 : wfDict2 g3) (h4 : wfDict2 g4) :
    vals2 (three_combineAll (g1, g2, g3, g4)).1 org uid =
      vals2 g1 org uid ++ vals2 g2 org uid ++ vals2 g3 org uid ++ vals2 g4 org uid := by
  simp only [three_combineAll, List.foldl_cons, List.foldl_nil]
  rw [three_combineGroup_vals g4 _ org uid h4, three_combineGroup_vals g3 _ org uid h3,
    three_combineGroup_vals g2 _ org uid h2, three_combineGroup_vals g1 _ org uid h1]
  simp [vals2, vals1, alGet, List.append_assoc]

theorem four_combineAll_vals (g1 g2 g3 g4 : Dict3) (org uid info : String)
    (h1 : wfDict3 g1) (h2 : wfDict3 g2) (h3 : wfDict3 g3) (h4 : wfDict3 g4) :
    vals3 (four_combineAll (g1, g2, g3, g4)).1 org uid info =
      vals3 g1 org uid info ++ vals3 g2 org uid info ++ vals3 g3 org uid info ++
        vals3 g4 org uid info := by
  simp only [four_combineAll, List.foldl_cons, List.foldl_nil]
  rw [four_combineGroup_vals g4 _ org uid info h4, four_combineGroup_vals g3 _ org uid info h3,
    four_combineGroup_vals g2 _ org uid info h2, four_combineGroup_vals g1 _ org uid info h1]
  simp [vals3, vals2u, vals1, alGet, List.append_assoc]

theorem organism_combineAll_vals (g1 g2 g3 g4 : DictO) (org : String)
    (h1 : (keysOf g1).Nodup) (h2 : (keysOf g2).Nodup) (h3 : (keysOf g3).Nodup)
    (h4 : (keysOf g4).Nodup) :
    valsO (organism_combineAll (g1, g2, g3, g4)).1 org =
      valsO g1 org ++ valsO g2 org ++ valsO g3 org ++ valsO g4 org := by
  simp only [organism_combineAll, List.foldl_cons, List.foldl_nil]
  rw [organism_combineGroup_vals g4 _ org h4, organism_combineGroup_vals g3 _ org h3,
    organism_combineGroup_vals g2 _ org h2, organism_combineGroup_vals g1 _ org h1]
  simp [valsO, alGet, List.append_assoc]

theorem four_getData_some (q : Dict3 × Dict3 × Dict3 × Dict3) (res : Dict3)
    (h : four_getData (some q) = some res) : res = (four_combineAll q).1 := by
  unfold four_getData at h
  by_cases hf : (four_combineAll q).2 = true
  · simp [hf] at h
    exact h.symm
  · simp [Bool.eq_false_iff.mpr hf] at h

theorem three_getData_some (q : Dict2 × Dict2 × Dict2 × Dict2) (res : Dict2)
    (h : three_getData (some q) = some res) : res = (three_combineAll q).1 := by
  unfold three_getData at h
  by_cases hf : (three_combineAll q).2 = true
  · simp [hf] at h
    exact h.symm
  · simp [Bool.eq_false_iff.mpr hf] at h

theorem organism_getData_some (q : DictO × DictO × DictO × DictO) (res : DictO)
    (h : organism_getData (some q) = some res) : res = (organism_combineAll q).1 := by
  unfold organism_getData at h
  by_cases hf : (organism_combineAll q).2 = true
  · simp [hf] at h
    exact h.symm
  · simp [Bool.eq_false_iff.mpr hf] at h

/-- A document with a depth-four Km table holding one visible-primary row
and one identical hidden-primary row. -/
def kmExampleDoc : Doc :=
  { tables :=
      [("tab12",
        { headers := ["KM VALUE [mM]"]
          grey1 := [{ links := ["P12345"], text := "x\n0.5\ncofactor X\nHomo sapiens\nP12345" }]
          grey2 := []
          hidden1 := [{ links := ["P12345"], text := "x\n0.5\ncofactor X\nHomo sapiens\nP12345" }]
          hidden2 := [] })] }

/-- C3: merging the four parsed row groups is strictly additive — under any
(organism, identifier, information) key path the merged value list is the
concatenation of the four per-group value lists in the fixed order
visible-primary, visible-secondary, hidden-primary, hidden-secondary (the
same holds at depth three for (organism, identifier) paths), and a
depth-four document with one visible row of value 0.5 and one identical
hidden row yields both value copies, not one. -/
theorem merge_is_additive :
    (∀ (g1 g2 g3 g4 res : Dict3), wfDict3 g1 → wfDict3 g2 → wfDict3 g3 → wfDict3 g4 →
        four_getData (some (g1, g2, g3, g4)) = some res →
        ∀ org uid info,
          vals3 res org uid info =
            vals3 g1 org uid info ++ vals3 g2 org uid info ++ vals3 g3 org uid info ++
              vals3 g4 org uid info) ∧
    (∀ (g1 g2 g3 g4 res : Dict2), wfDict2 g1 → wfDict2 g2 → wfDict2 g3 → wfDict2 g4 →
        three_getData (some (g1, g2, g3, g4)) = some res →
        ∀ org uid,
          vals2 res org uid =
            vals2 g1 org uid ++ vals2 g2 org uid ++ vals2 g3 org uid ++ vals2 g4 org uid) ∧
    kmExtract kmExampleDoc =
      .ok (some [("Homo sapiens",
        [("P12345", [("cofactor X", [.float ⟨1, 2⟩, .float ⟨1, 2⟩])])])]) := by
  refine ⟨?_, ?_, by decide⟩
  · intro g1 g2 g3 g4 res h1 h2 h3 h4 hres org uid info
    rw [four_getData_some _ res hres]
    exact four_combineAll_vals g1 g2 g3 g4 org uid info h1 h2 h3 h4
  · intro g1 g2 g3 g4 res h1 h2 h3 h4 hres org uid
    rw [three_getData_some _ res hres]
    exact three_combineAll_vals g1 g2 g3 g4 org uid h1 h2 h3 h4

/-- Closed instantiation of `merge_is_additive` at concrete row groups. -/
theorem merge_is_additive_witness :
    vals3 [("A", [("P", [("i", [PyVal.int 1])])])] "A" "P" "i" =
      vals3 [("A", [("P", [("i", [PyVal.int 1])])])] "A" "P" "i" ++
        vals3 ([] : Dict3) "A" "P" "i" ++ vals3 ([] : Dict3) "A" "P" "i" ++
        vals3 ([] : Dict3) "A" "P" "i" :=
  merge_is_additive.1 [("A", [("P", [("i", [PyVal.int 1])])])] [] [] []
    [("A", [("P", [("i", [PyVal.int 1])])])]
    (by decide) (by decide) (by decide) (by decide) (by decide) "A" "P" "i"

/-- An organism-table document with two visible-primary rows for the same
organism, mentioning `Q9XYZ1` and then `Q9XYZ1, Q9XYZ2`. -/
def organismDupDoc : Doc :=
  { tables :=
      [("tab20",
        { headers := ["ORGANISM"]
          grey1 :=
            [{ links := ["Q9XYZ1"], text := "x\nHomo sapiens\na\nb\nQ9XYZ1" },
             { links := ["Q9XYZ1", "Q9XYZ2"], text := "x\nHomo sapiens\na\nb\nQ9XYZ1, Q9XYZ2" }]
          grey2 := []
          hidden1 := []
          hidden2 := [] })] }

/-- C7 counterexample: the organism table accumulates identifiers in a plain
list; the two-row example keeps the duplicate mention, so the result is
`["Q9XYZ1", "Q9XYZ1", "Q9XYZ2"]` and not the claimed duplicate-free sorted
list `["Q9XYZ1", "Q9XYZ2"]`. -/
theorem organism_ids_not_dedup_counterexample :
    organismExtract organismDupDoc =
      .ok (some [("Homo sapiens", ["Q9XYZ1", "Q9XYZ1", "Q9XYZ2"])]) ∧
    organismExtract organismDupDoc ≠
      .ok (some [("Homo sapiens", ["Q9XYZ1", "Q9XYZ2"])]) := by
  constructor <;> decide

/-- C7 amended: the per-organism identifier collection of the organism
table is a plain list, appended to in encounter order with no
deduplication and no sorting: the merged identifier list under each
organism is the concatenation of the four per-group lists, and the two-row
example yields `["Q9XYZ1", "Q9XYZ1", "Q9XYZ2"]`. -/
theorem organism_ids_accumulate_as_list :
    (∀ (g1 g2 g3 g4 res : DictO),
        (keysOf g1).Nodup → (keysOf g2).Nodup → (keysOf g3).Nodup → (keysOf g4).Nodup →
        organism_getData (some (g1, g2, g3, g4)) = some res →
        ∀ org, valsO res org = valsO g1 org ++ valsO g2 org ++ valsO g3 org ++ valsO g4 org) ∧
    organismExtract organismDupDoc =
      .ok (some [("Homo sapiens", ["Q9XYZ1", "Q9XYZ1", "Q9XYZ2"])]) := by
  refine ⟨?_, by decide⟩
  intro g1 g2 g3 g4 res h1 h2 h3 h4 hres org
  rw [organism_getData_some _ res hres]
  exact organism_combineAll_vals g1 g2 g3 g4 org h1 h2 h3 h4

/-- Closed instantiation of `organism_ids_accumulate_as_list` at concrete
row groups. -/
theorem organism_ids_accumulate_as_list_witness :
    valsO [("A", ["P", "P"])] "A" =
      valsO [("A", ["P"])] "A" ++ valsO ([] : DictO) "A" ++ valsO [("A", ["P"])] "A" ++
        valsO ([] : DictO) "A" :=
  organism_ids_accumulate_as_list.1 [("A", ["P"])] [] [("A", ["P"])] [] [("A", ["P", "P"])]
    (by decide) (by decide) (by decide) (by decide) (by decide) "A"

-- word structure of normalized names (claim C9)

theorem charToNat_ofNat {n : Nat} (h : n < 55296) : (Char.ofNat n).toNat = n := by
  have hv : n.isValidChar := Or.inl h
  unfold Char.ofNat
  rw [dif_pos hv]
  rfl

theorem isPySpace_pyToLowerChar (c : Char) : isPySpace (pyToLowerChar c) = isPySpace c := by
  unfold pyToLowerChar
  by_cases h : 65 ≤ c.toNat ∧ c.toNat ≤ 90
  · rw [if_pos h]
    have h1 : (Char.ofNat (c.toNat + 32)).toNat = c.toNat + 32 := charToNat_ofNat (by omega)
    simp only [isPySpace, h1, decide_eq_decide]
    omega
  · rw [if_neg h]

theorem isPySpace_pyToUpperChar (c : Char) : isPySpace (pyToUpperChar c) = isPySpace c := by
  unfold pyToUpperChar
  by_cases h : 97 ≤ c.toNat ∧ c.toNat ≤ 122
  · rw [if_pos h]
    have h1 : (Char.ofNat (c.toNat - 32)).toNat = c.toNat - 32 := charToNat_ofNat (by omega)
    simp only [isPySpace, h1, decide_eq_decide]
    omega
  · rw [if_neg h]

theorem pyWordsAux_length_congr :
    ∀ (cs ds acc acc' : List Char),
      cs.map isPySpace = ds.map isPySpace → (acc = [] ↔ acc' = []) →
      (pyWordsAux acc cs).length = (pyWordsAux acc' ds).length := by
  intro cs
  induction cs with
  | nil =>
    intro ds acc acc' hmap hacc
    have hds : ds = [] := by
      cases ds with
      | nil => rfl
      | cons d ds' => simp at hmap
    subst hds
    by_cases ha : acc = []
    · simp [pyWordsAux, ha, hacc.mp ha]
    · have ha' : acc' ≠ [] := fun hh => ha (hacc.mpr hh)
      simp [pyWordsAux, ha, ha']
  | cons c rest ih =>
    intro ds acc acc' hmap hacc
    cases ds with
    | nil => simp at hmap
    | cons d ds' =>
      simp only [List.map_cons, List.cons.injEq] at hmap
      unfold pyWordsAux
      by_cases hs : isPySpace c
      · have hd : isPySpace d = true := by rw [← hmap.1, hs]
        rw [if_pos hs, if_pos hd]
        by_cases ha : acc = []
        · rw [if_pos ha, if_pos (hacc.mp ha)]
          exact ih ds' [] [] hmap.2 Iff.rfl
        · have ha' : acc' ≠ [] := fun hh => ha (hacc.mpr hh)
          rw [if_neg ha, if_neg ha']
          simpa using ih ds' [] [] hmap.2 Iff.rfl
      · have hd : ¬ isPySpace d = true := by rw [← hmap.1]; exact hs
        rw [if_neg hs, if_neg hd]
        exact ih ds' (c :: acc) (d :: acc') hmap.2 (by simp)

theorem spaceShape_capitalize_lower (l : List Char) :
    (pyCapitalizeL (pyLowerL l)).map isPySpace = l.map isPySpace := by
  cases l with
  | nil => rfl
  | cons c rest =>
    simp only [pyLowerL, List.map_cons, pyCapitalizeL, List.map_map]
    rw [isPySpace_pyToUpperChar, isPySpace_pyToLowerChar]
    refine congrArg (isPySpace c :: ·) ?_
    apply List.map_congr_left
    intro a _
    simp only [Function.comp_apply]
    rw [isPySpace_pyToLowerChar, isPySpace_pyToLowerChar]

theorem pyWordsAux_nonspace_chunk :
    ∀ (w cs acc : List Char), (∀ c ∈ w, isPySpace c = false) →
      pyWordsAux acc (w ++ cs) = pyWordsAux (w.reverse ++ acc) cs := by
  intro w
  induction w with
  | nil => intro cs acc _; simp
  | cons c wrest ih =>
    intro cs acc hw
    have hc : isPySpace c = false := hw c (List.mem_cons_self _ _)
    have hstep : pyWordsAux acc ((c :: wrest) ++ cs) = pyWordsAux (c :: acc) (wrest ++ cs) := by
      simp only [List.cons_append]
      conv_lhs => unfold pyWordsAux
      rw [hc]
      simp
    rw [hstep, ih cs (c :: acc) (fun x hx => hw x (List.mem_cons_of_mem _ hx))]
    simp

theorem joinSpaceL_cons₂ (a b : List Char) (t : List (List Char)) :
    joinSpaceL (a :: b :: t) = a ++ ' ' :: joinSpaceL (b :: t) := by
  simp [joinSpaceL, List.intercalate, List.intersperse]

theorem pyWordsL_joinSpace :
    ∀ (l : List (List Char)), (∀ w ∈ l, w ≠ [] ∧ ∀ c ∈ w, isPySpace c = false) →
      pyWordsL (joinSpaceL l) = l := by
  intro l
  induction l with
  | nil => intro _; rfl
  | cons w rest ih =>
    intro hl
    have hw := hl w (List.mem_cons_self _ _)
    cases rest with
    | nil =>
      have hj : joinSpaceL [w] = w := by simp [joinSpaceL, List.intercalate, List.intersperse]
      rw [hj]
      unfold pyWordsL
      rw [show w = w ++ ([] : List Char) by simp, pyWordsAux_nonspace_chunk w [] [] hw.2]
      simp [pyWordsAux, hw.1]
    | cons w2 rest2 =>
      rw [joinSpaceL_cons₂]
      unfold pyWordsL
      rw [pyWordsAux_nonspace_chunk w (' ' :: joinSpaceL (w2 :: rest2)) [] hw.2]
      unfold pyWordsAux
      rw [if_pos (by decide : isPySpace ' ' = true)]
      rw [if_neg (by simp [hw.1])]
      have := ih (fun q hq => hl q (List.mem_cons_of_mem _ hq))
      unfold pyWordsL at this
      simp [this]

theorem pyWordsAux_mem :
    ∀ (cs acc : List Char), (∀ c ∈ acc, isPySpace c = false) →
      ∀ w ∈ pyWordsAux acc cs, w ≠ [] ∧ ∀ c ∈ w, isPySpace c = false := by
  intro cs
  induction cs with
  | nil =>
    intro acc hacc w hw
    unfold pyWordsAux at hw
    by_cases ha : acc = []
    · simp [ha] at hw
    · rw [if_neg ha] at hw
      simp only [List.mem_singleton] at hw
      subst hw
      exact ⟨by simpa using ha, fun c hc => hacc c (List.mem_reverse.mp hc)⟩
  | cons c rest ih =>
    intro acc hacc w hw
    unfold pyWordsAux at hw
    by_cases hs : isPySpace c
    · rw [if_pos hs] at hw
      by_cases ha : acc = []
      · rw [if_pos ha] at hw
        exact ih [] (by simp) w hw
      · rw [if_neg ha] at hw
        rcases List.mem_cons.mp hw with hh | hh
        · subst hh
          exact ⟨by simpa using ha, fun x hx => hacc x (List.mem_reverse.mp hx)⟩
        · exact ih [] (by simp) w hh
    · rw [if_neg hs] at hw
      refine ih (c :: acc) ?_ w hw
      intro x hx
      rcases List.mem_cons.mp hx with hh | hh
      · subst hh; simpa using hs
      · exact hacc x hh

theorem normalizeName_words_le_two (s : String) :
    (pyWordsL (normalizeName s).data).length ≤ 2 := by
  unfold normalizeName
  set cs1 := (if (pyWordsL s.data).length < (splitOnCharL '_' s.data).length
    then joinSpaceL (splitOnCharL '_' s.data) else s.data) with hcs1
  set ws := (pyWordsL cs1).take 2 with hws
  have hdata :
      ((pyCapitalizeL (pyLowerL (joinSpaceL ws))).asString).data =
        pyCapitalizeL (pyLowerL (joinSpaceL ws)) := rfl
  rw [hdata]
  have hmem : ∀ w ∈ ws, w ≠ [] ∧ ∀ c ∈ w, isPySpace c = false := by
    intro w hw
    exact pyWordsAux_mem cs1 [] (by simp) w (List.take_subset 2 _ hw)
  have hcongr :
      (pyWordsL (pyCapitalizeL (pyLowerL (joinSpaceL ws)))).length =
        (pyWordsL (joinSpaceL ws)).length := by
    unfold pyWordsL
    exact pyWordsAux_length_congr _ _ [] [] (spaceShape_capitalize_lower _) Iff.rfl
  rw [hcongr, pyWordsL_joinSpace ws hmem, hws]
  exact List.length_take_le 2 _

-- claim C4: organism normalization examples

/-- C4 counterexample: normalization maps `"Escherichia_coli K12"` to
`"Escherichia_coli k12"`, not to the claimed `"Escherichia coli"` — the
underscore branch only fires when whitespace splitting yields strictly fewer
tokens than underscore splitting, and here both yield two. -/
theorem normalize_underscore_strain_counterexample :
    normalizeName "Escherichia_coli K12" ≠ "Escherichia coli" := by decide

/-- C4 amended: normalization maps `"escherichia coli"` to
`"Escherichia coli"` but `"Escherichia_coli K12"` to
`"Escherichia_coli k12"`, and it is not idempotent: on `"a_b_c d e"` a
second application changes the result again. -/
theorem normalize_name_examples :
    normalizeName "escherichia coli" = "Escherichia coli" ∧
    normalizeName "Escherichia_coli K12" = "Escherichia_coli k12" ∧
    normalizeName (normalizeName "a_b_c d e") ≠ normalizeName "a_b_c d e" := by
  refine ⟨by decide, by decide, by decide⟩

-- claim C6: sentinel and fatal value formats

/-- C6: behaviour of the numeric value coercion on the additional
information sentinel.  A value cell that is exactly the sentinel is
rejected (`None`), and a two-value range whose bound is the comma-prefixed
sentinel `,additionalinformation` is rejected; but on the very input named
by the source comment, `0.018-additionalinformation`, the bound equals the
bare sentinel, the comparison with the comma-prefixed literal fails, and
`float('additionalinformation')` raises `ValueError` instead of the row
being rejected.  Any other non-numeric non-range value also raises. -/
theorem sentinel_and_fatal_value_formats :
    coerceValue "additionalinformation" = .ok none ∧
    coerceValue "0.018,-,additionalinformation" = .ok none ∧
    coerceValue "0.018-additionalinformation" = .error .valueError ∧
    coerceValue "abc" = .error .valueError ∧
    three_parseSingle true
        { links := ["P12345"], text := "x\nadditional information\nHomo sapiens\nP12345" } =
      .ok none ∧
    three_parseSingle true
        { links := ["P12345"], text := "x\n0.018-additional information\nHomo sapiens\nP12345" } =
      .error .valueError := by
  refine ⟨by decide, by decide, by decide, by decide, by decide, by decide⟩

-- claim C8: rows whose organism begins with "no activity"

/-- An organism-table document whose single row has an organism field
beginning with `no activity`. -/
def noActivityDoc : Doc :=
  { tables :=
      [("tab20",
        { headers := ["ORGANISM"]
          grey1 := [{ links := ["Q9XYZ1"], text := "x\nno activity in Homo sapiens\na\nb\nQ9XYZ1" }]
          grey2 := []
          hidden1 := []
          hidden2 := [] })] }

/-- C8 counterexample: a row whose organism field begins with
`no activity` is not discarded — it produces a record and the extraction
result contains it (under the normalized key `"No activity"`), instead of
the claimed empty contribution. -/
theorem no_activity_rows_kept_counterexample :
    organismExtract noActivityDoc = .ok (some [("No activity", ["Q9XYZ1"])]) ∧
    organismExtract noActivityDoc ≠ .ok none := by
  refine ⟨by decide, by decide⟩

/-- C8 amended: the organism table parser has no `no activity` filter; such
rows are parsed like any other row and contribute a record whose organism
key is the normalization of the field (its first two words,
`"No activity"`). -/
theorem no_activity_rows_parsed :
    organism_parseSingle
        { links := ["Q9XYZ1"], text := "x\nno activity in Homo sapiens\na\nb\nQ9XYZ1" } =
      .ok (some ("No activity", ["Q9XYZ1"])) ∧
    organismExtract noActivityDoc = .ok (some [("No activity", ["Q9XYZ1"])]) := by
  refine ⟨by decide, by decide⟩

-- claim C9 counterexample document

/-- An organism-table document whose single row has a one-word organism
field. -/
def cellulomonasDoc : Doc :=
  { tables :=
      [("tab20",
        { headers := ["ORGANISM"]
          grey1 := [{ links := ["Q9XYZ1"], text := "x\nCellulomonas\na\nb\nQ9XYZ1" }]
          grey2 := []
          hidden1 := []
          hidden2 := [] })] }

/-- C9 counterexample: a result mapping can carry an organism key of a
single whitespace token — a one-word raw organism field stays one word
after normalization, refuting "exactly two tokens". -/
theorem one_word_organism_key_counterexample :
    organismExtract cellulomonasDoc = .ok (some [("Cellulomonas", ["Q9XYZ1"])]) ∧
    (pyWordsL ("Cellulomonas" : String).data).length = 1 := by
  refine ⟨by decide, by decide⟩

-- parser inversion lemmas (shared by the identifier and organism claims)

theorem three_parse_ok_inv (numeric : Bool) (row : Row) (r : Rec3)
    (h : three_parseSingle numeric row = .ok (some r)) :
    r.2.1 = normalizeName (pyStripChar ',' ((rowParts row).getD 2 "")) ∧
    r.2.2 =
      (rawTokens ((rowParts row).getD 3 "")).filter
        (fun s => (rowPotential row).contains s) := by
  simp only [three_parseSingle] at h
  by_cases h3 : 3 < (rowParts row).length
  · rw [if_pos h3] at h
    split at h
    · exact absurd h (by simp)
    · exact absurd h (by simp)
    · split at h
      · exact absurd h (by simp)
      · split at h
        · exact absurd h (by simp)
        · simp only [Except.ok.injEq, Option.some.injEq] at h
          subst h
          exact ⟨rfl, rfl⟩
  · rw [if_neg h3] at h
    exact absurd h (by simp)

theorem four_parse_ok_inv (numeric : Bool) (row : Row) (r : Rec4)
    (h : four_parseSingle numeric row = .ok (some r)) :
    r.2.2.1 = normalizeName (pyStripChar ',' ((rowParts row).getD 3 "")) ∧
    r.2.2.2 =
      (rawTokens ((rowParts row).getD 4 "")).filter
        (fun s => (rowPotential row).contains s) := by
  simp only [four_parseSingle] at h
  by_cases h3 : 3 < (rowParts row).length
  · rw [if_pos h3] at h
    split at h
    · exact absurd h (by simp)
    · exact absurd h (by simp)
    · split at h
      · exact absurd h (by simp)
      · split at h
        · exact absurd h (by simp)
        · next p4 hp4 =>
          split at h
          · exact absurd h (by simp)
          · simp only [Except.ok.injEq, Option.some.injEq] at h
            subst h
            refine ⟨rfl, ?_⟩
            have hg : (rowParts row).getD 4 "" = p4 := by
              simp [List.getD, hp4]
            rw [hg]
  · rw [if_neg h3] at h
    exact absurd h (by simp)

theorem organism_parse_ok_inv (row : Row) (r : RecO)
    (h : organism_parseSingle row = .ok (some r)) :
    r.1 = normalizeName (pyStripChar ',' ((rowParts row).getD 1 "")) ∧
    r.2 =
      (rawTokens ((rowParts row).getD 4 "")).filter
        (fun s => (rowPotential row).contains s && s ≠ "") := by
  simp only [organism_parseSingle] at h
  by_cases h3 : 3 < (rowParts row).length
  · rw [if_pos h3] at h
    split at h
    · exact absurd h (by simp)
    · next p4 hp4 =>
      split at h
      · exact absurd h (by simp)
      · simp only [Except.ok.injEq, Option.some.injEq] at h
        subst h
        refine ⟨rfl, ?_⟩
        have hg : (rowParts row).getD 4 "" = p4 := by
          simp [List.getD, hp4]
        rw [hg]
  · rw [if_neg h3] at h
    exact absurd h (by simp)

theorem filter_contains_ne_empty_singleton (row : Row) (toks : List String) :
    toks.filter (fun s => (rowPotential row).contains s) ≠ [""] := by
  intro hcontra
  have hmem : "" ∈ toks.filter (fun s => (rowPotential row).contains s) := by
    rw [hcontra]; exact List.mem_singleton_self _
  have hpred := (List.mem_filter.mp hmem).2
  have h1 : ("" : String) ∈ rowPotential row := by
    simp at hpred
    exact hpred
  have h2 : ("" : String) ∈ row.links.filter (fun s => s ≠ "") := by
    rw [rowPotential] at h1
    exact h1
  have := (List.mem_filter.mp h2).2
  simp at this

theorem filter_contains_ne_empty_singleton_org (row : Row) (toks : List String) :
    toks.filter (fun s => (rowPotential row).contains s && s ≠ "") ≠ [""] := by
  intro hcontra
  have hmem : "" ∈ toks.filter (fun s => (rowPotential row).contains s && s ≠ "") := by
    rw [hcontra]; exact List.mem_singleton_self _
  have hpred := (List.mem_filter.mp hmem).2
  simp at hpred

theorem three_parse_false_ok (row : Row) (h3 : 3 < (rowParts row).length)
    (hs : removeChar ' ' (pyStripChar ',' ((rowParts row).getD 1 "")) ≠ "additionalinformation") :
    three_parseSingle false row =
      .ok (some (.str (removeChar ' ' (pyStripChar ',' ((rowParts row).getD 1 ""))),
        normalizeName (pyStripChar ',' ((rowParts row).getD 2 "")),
        (rawTokens ((rowParts row).getD 3 "")).filter
          (fun s => (rowPotential row).contains s))) := by
  simp only [three_parseSingle, if_pos h3]
  split
  · next e heq => simp [valueStep] at heq
  · next heq => simp [valueStep] at heq
  · next v heq =>
    have hv : v = .str (removeChar ' ' (pyStripChar ',' ((rowParts row).getD 1 ""))) := by
      simpa [valueStep] using heq.symm
    subst hv
    rw [if_neg (by simpa using hs)]
    rw [if_neg (filter_contains_ne_empty_singleton row _)]

theorem four_parse_false_ok (row : Row) (h4 : 4 < (rowParts row).length)
    (hs : removeChar ' ' (pyStripChar ',' ((rowParts row).getD 1 "")) ≠ "additionalinformation") :
    four_parseSingle false row =
      .ok (some (.str (removeChar ' ' (pyStripChar ',' ((rowParts row).getD 1 ""))),
        pyStripChar ',' ((rowParts row).getD 2 ""),
        normalizeName (pyStripChar ',' ((rowParts row).getD 3 "")),
        (rawTokens ((rowParts row).getD 4 "")).filter
          (fun s => (rowPotential row).contains s))) := by
  simp only [four_parseSingle, if_pos (show 3 < (rowParts row).length by omega)]
  split
  · next e heq => simp [valueStep] at heq
  · next heq => simp [valueStep] at heq
  · next v heq =>
    have hv : v = .str (removeChar ' ' (pyStripChar ',' ((rowParts row).getD 1 ""))) := by
      simpa [valueStep] using heq.symm
    subst hv
    rw [if_neg (by simpa using hs)]
    split
    · next heq4 =>
      rw [List.getElem?_eq_none_iff] at heq4
      omega
    · next p4 heq4 =>
      have hg : (rowParts row).getD 4 "" = p4 := by simp [List.getD, heq4]
      rw [if_neg (filter_contains_ne_empty_singleton row _)]
      rw [hg]

-- claim C1: identifier filtering

/-- C1 counterexample: a depth-three row whose identifier cell is the clean
accession `P12345` but which has no inline links yields a record whose
identifier list is empty — the token is dropped although it matches the
accession shape (there is no accession-pattern fallback in the filter), and
no `"unknown"` sentinel is substituted. -/
theorem identifier_filter_counterexample :
    three_parseSingle false { links := [], text := "a\n22\nHomo sapiens\nP12345" } =
      .ok (some (.str "22", "Homo sapiens", [])) ∧
    ("P12345" ∉ ([] : List String)) ∧ ([] : List String) ≠ ["unknown"] := by
  refine ⟨by decide, by decide, by decide⟩

/-- C1 amended: for every accepted row of the depth-three and depth-four
parsers, the identifier list is exactly the raw identifier-cell tokens that
appear in the inline-link candidate set — membership in the candidate set
is the only criterion, with no independent accession-pattern test; and when
this filtering yields no tokens, the record is still returned with an empty
identifier list (not `["unknown"]`, and the row is not discarded). -/
theorem identifier_filtering_membership_only :
    (∀ (numeric : Bool) (row : Row) (r : Rec3),
        three_parseSingle numeric row = .ok (some r) →
        r.2.2 =
          (rawTokens ((rowParts row).getD 3 "")).filter
            (fun s => (rowPotential row).contains s)) ∧
    (∀ (numeric : Bool) (row : Row) (r : Rec4),
        four_parseSingle numeric row = .ok (some r) →
        r.2.2.2 =
          (rawTokens ((rowParts row).getD 4 "")).filter
            (fun s => (rowPotential row).contains s)) ∧
    (∀ row : Row, 3 < (rowParts row).length →
        removeChar ' ' (pyStripChar ',' ((rowParts row).getD 1 "")) ≠ "additionalinformation" →
        three_parseSingle false row =
          .ok (some (.str (removeChar ' ' (pyStripChar ',' ((rowParts row).getD 1 ""))),
            normalizeName (pyStripChar ',' ((rowParts row).getD 2 "")),
            (rawTokens ((rowParts row).getD 3 "")).filter
              (fun s => (rowPotential row).contains s)))) ∧
    (∀ row : Row, 4 < (rowParts row).length →
        removeChar ' ' (pyStripChar ',' ((rowParts row).getD 1 "")) ≠ "additionalinformation" →
        four_parseSingle false row =
          .ok (some (.str (removeChar ' ' (pyStripChar ',' ((rowParts row).getD 1 ""))),
            pyStripChar ',' ((rowParts row).getD 2 ""),
            normalizeName (pyStripChar ',' ((rowParts row).getD 3 "")),
            (rawTokens ((rowParts row).getD 4 "")).filter
              (fun s => (rowPotential row).contains s)))) := by
  refine ⟨?_, ?_, three_parse_false_ok, four_parse_false_ok⟩
  · intro numeric row r h
    exact (three_parse_ok_inv numeric row r h).2
  · intro numeric row r h
    exact (four_parse_ok_inv numeric row r h).2

/-- Closed instantiation of `identifier_filtering_membership_only` at a row
whose filter yields no tokens. -/
theorem identifier_filtering_membership_only_witness :
    three_parseSingle false { links := [], text := "a\n22\nHomo sapiens\nP12345" } =
      .ok (some (.str (removeChar ' '
          (pyStripChar ','
            ((rowParts { links := [], text := "a\n22\nHomo sapiens\nP12345" }).getD 1 ""))),
        normalizeName (pyStripChar ','
          ((rowParts { links := [], text := "a\n22\nHomo sapiens\nP12345" }).getD 2 "")),
        (rawTokens
            ((rowParts { links := [], text := "a\n22\nHomo sapiens\nP12345" }).getD 3 "")).filter
          (fun s =>
            (rowPotential { links := [], text := "a\n22\nHomo sapiens\nP12345" }).contains s))) :=
  identifier_filtering_membership_only.2.2.1
    { links := [], text := "a\n22\nHomo sapiens\nP12345" } (by decide) (by decide)

-- claim C9: organism key word count

/-- C9 amended: every organism field of a record accepted by any of the row
parsers is a normalized name, and normalization always yields at most two
whitespace-separated tokens (one-word raw names stay one word, so "exactly
two" does not hold). -/
theorem organism_keys_at_most_two_words :
    (∀ s : String, (pyWordsL (normalizeName s).data).length ≤ 2) ∧
    (∀ (numeric : Bool) (row : Row) (r : Rec3),
        three_parseSingle numeric row = .ok (some r) →
        (pyWordsL r.2.1.data).length ≤ 2) ∧
    (∀ (numeric : Bool) (row : Row) (r : Rec4),
        four_parseSingle numeric row = .ok (some r) →
        (pyWordsL r.2.2.1.data).length ≤ 2) ∧
    (∀ (row : Row) (r : RecO),
        organism_parseSingle row = .ok (some r) →
        (pyWordsL r.1.data).length ≤ 2) := by
  refine ⟨normalizeName_words_le_two, ?_, ?_, ?_⟩
  · intro numeric row r h
    rw [(three_parse_ok_inv numeric row r h).1]
    exact normalizeName_words_le_two _
  · intro numeric row r h
    rw [(four_parse_ok_inv numeric row r h).1]
    exact normalizeName_words_le_two _
  · intro row r h
    rw [(organism_parse_ok_inv row r h).1]
    exact normalizeName_words_le_two _

/-- Closed instantiation of `organism_keys_at_most_two_words` at a concrete
accepted organism row. -/
theorem organism_keys_at_most_two_words_witness :
    (pyWordsL (("Homo sapiens", ["Q9XYZ1"]) : RecO).1.data).length ≤ 2 :=
  organism_keys_at_most_two_words.2.2.2
    { links := ["Q9XYZ1"], text := "x\nHomo sapiens\na\nb\nQ9XYZ1" }
    ("Homo sapiens", ["Q9XYZ1"]) (by decide)

-- claim C10: positional field extraction and IndexError

theorem coerceValue_ne_indexError (s : String) : coerceValue s ≠ .error .indexError := by
  unfold coerceValue
  repeat' split
  all_goals simp

theorem valueStep_ne_indexError (numeric : Bool) (s : String) :
    valueStep numeric s ≠ .error .indexError := by
  cases numeric with
  | false => simp [valueStep]
  | true => simpa [valueStep] using coerceValue_ne_indexError s

/-- C10 counterexample: a row whose flattened text splits into exactly four
parts (which is "more than three") makes both the depth-four and the
organism single-div parsers raise `IndexError` at `parts[4]`. -/
theorem parsers_index_error_counterexample :
    (rowParts { links := ["P12345"], text := "a\nb\nHomo sapiens\nP12345" }).length = 4 ∧
    four_parseSingle false { links := ["P12345"], text := "a\nb\nHomo sapiens\nP12345" } =
      .error .indexError ∧
    organism_parseSingle { links := ["P12345"], text := "a\nb\nHomo sapiens\nP12345" } =
      .error .indexError := by
  refine ⟨by decide, by decide, by decide⟩

/-- C10 amended: with more than four parts (so `parts[4]` exists) the
depth-four parser never raises `IndexError` (a numeric table may still
raise `ValueError` on a malformed value cell), and the organism parser
always returns a record or `None`. -/
theorem parsers_no_index_error_with_five_parts :
    (∀ (numeric : Bool) (row : Row), 4 < (rowParts row).length →
        four_parseSingle numeric row ≠ .error .indexError) ∧
    (∀ row : Row, 4 < (rowParts row).length →
        ∃ o, organism_parseSingle row = .ok o) := by
  constructor
  · intro numeric row h4 hcontra
    simp only [four_parseSingle, if_pos (show 3 < (rowParts row).length by omega)] at hcontra
    split at hcontra
    · next e heq =>
      have he : e = .indexError := by simpa using hcontra
      subst he
      exact valueStep_ne_indexError _ _ heq
    · simp at hcontra
    · split at hcontra
      · simp at hcontra
      · split at hcontra
        · next heq4 =>
          rw [List.getElem?_eq_none_iff] at heq4
          omega
        · split at hcontra <;> simp at hcontra
  · intro row h4
    cases hsplit : organism_parseSingle row with
    | ok o => exact ⟨o, rfl⟩
    | error e =>
      exfalso
      simp only [organism_parseSingle,
        if_pos (show 3 < (rowParts row).length by omega)] at hsplit
      split at hsplit
      · next heq4 =>
        rw [List.getElem?_eq_none_iff] at heq4
        omega
      · split at hsplit <;> simp at hsplit

/-- Closed instantiation of `parsers_no_index_error_with_five_parts` at a
five-part row. -/
theorem parsers_no_index_error_with_five_parts_witness :
    ∃ o, organism_parseSingle { links := ["Q9XYZ1"], text := "x\nHomo sapiens\na\nb\nQ9XYZ1" } =
      .ok o :=
  parsers_no_index_error_with_five_parts.2
    { links := ["Q9XYZ1"], text := "x\nHomo sapiens\na\nb\nQ9XYZ1" } (by decide)

-- claim C5: range value coercion

/-- C5: when a numeric value cell fails the direct float parse, a
two-element `-` split with float bounds (neither the comma-prefixed
sentinel) coerces to the rounded mean of the bounds, as does a two-element
`to` split when the `-` split did not have exactly two pieces; concretely
`12.0-14.0` coerces to 13 and `5to7` to 6, also through the full
depth-three row parser. -/
theorem numeric_range_mean :
    (∀ (v a b : String) (x y : PyFloat), pyFloat? v = none → pySplitChar '-' v = [a, b] →
        a ≠ ",additionalinformation" → b ≠ ",additionalinformation" →
        pyFloat? a = some x → pyFloat? b = some y →
        coerceValue v = .ok (some (.int (pyRound (pfDivN (pfAdd x y) 2))))) ∧
    (∀ (v a b : String) (x y : PyFloat), pyFloat? v = none →
        (pySplitChar '-' v).length ≠ 2 → pySplitTo v = [a, b] →
        pyFloat? a = some x → pyFloat? b = some y →
        coerceValue v = .ok (some (.int (pyRound (pfDivN (pfAdd x y) 2))))) ∧
    coerceValue "12.0-14.0" = .ok (some (.int 13)) ∧
    coerceValue "5to7" = .ok (some (.int 6)) ∧
    three_parseSingle true { links := ["P12345"], text := "x\n12.0 - 14.0\nHomo sapiens\nP12345" } =
      .ok (some (.int 13, "Homo sapiens", ["P12345"])) := by
  refine ⟨?_, ?_, by decide, by decide, by decide⟩
  · intro v a b x y hv hd ha hb hx hy
    simp [coerceValue, hv, hd, ha, hb, hx, hy]
  · intro v a b x y hv hlen hto hx hy
    rcases hd : pySplitChar '-' v with _ | ⟨c, rest⟩
    · simp [coerceValue, hv, hd, hto, hx, hy]
    · rcases rest with _ | ⟨d, rest2⟩
      · simp [coerceValue, hv, hd, hto, hx, hy]
      · rcases rest2 with _ | ⟨e, rest3⟩
        · exact absurd (by simp [hd] : (pySplitChar '-' v).length = 2) hlen
        · simp [coerceValue, hv, hd, hto, hx, hy]

/-- Closed instantiation of `numeric_range_mean` on the range `1-2`. -/
theorem numeric_range_mean_witness :
    coerceValue "1-2" = .ok (some (.int (pyRound (pfDivN (pfAdd ⟨1, 1⟩ ⟨2, 1⟩) 2)))) :=
  numeric_range_mean.1 "1-2" "1" "2" ⟨1, 1⟩ ⟨2, 1⟩ (by decide) (by decide) (by decide)
    (by decide) (by decide) (by decide)

example : normalizeName "escherichia coli" = "Escherichia coli" := by decide
example : normalizeName "Escherichia_coli K12" = "Escherichia_coli k12" := by decide
example : normalizeName "Escherichia_coli" = "Escherichia coli" := by decide
example : pyFloat? "12.0" = some ⟨12, 1⟩ := by decide
example : pyFloat? "0.5" = some ⟨1, 2⟩ := by decide
example : pyFloat? "5" = some ⟨5, 1⟩ := by decide
example : pyFloat? "12.0-14.0" = none := by decide
example : pyRound ⟨27, 2⟩ = 14 := by decide
example : pyRound ⟨25, 2⟩ = 12 := by decide
example : pyRound ⟨13, 1⟩ = 13 := by decide
example : pySplitTo "5to7" = ["5", "7"] := by decide
